import Mathlib

/-!
Verification development for the `vscode-xrun-debugger` simulation session
controller (`xrunRuntime.ts` and its callers).  The TypeScript runtime is
shallowly embedded: the stateful `XrunRuntime` class becomes a `RuntimeState`
record threaded explicitly, writes to the engine's stdin become lists of
command strings, `sendEvent`/`runtime.emit` notifications become lists of
`Effect`s, and the JavaScript string/regex primitives used by the code are
reimplemented over `List Char` with JS semantics (clamping `substring`,
`parseInt`, `search` returning `-1`, etc.).
-/

namespace Xrun

/-- JS `\s` whitespace class, restricted to the ASCII range that the engine's
console output can contain. -/
def isJsWs (c : Char) : Bool :=
  c = ' ' || c = '\t' || c = '\n' || c = '\r' || c = '\x0b' || c = '\x0c'

/-- Value of a list of decimal digit characters. -/
def digitsToNat (l : List Char) : Nat :=
  l.foldl (fun a c => a * 10 + (c.toNat - '0'.toNat)) 0

/-- Does `l` start with `p`? (JS `String.prototype.startsWith` on char lists). -/
def startsWithL : List Char → List Char → Bool
  | _, [] => true
  | [], _ :: _ => false
  | a :: l, b :: p => a == b && startsWithL l p

/-- Does `l` contain `p` as a contiguous substring? (JS `includes` / a literal
regex search tested against `-1`). -/
def containsSub (p : List Char) : List Char → Bool
  | [] => startsWithL [] p
  | c :: r => startsWithL (c :: r) p || containsSub p r

/-- String-level wrapper for `containsSub`. -/
def containsStr (s pat : String) : Bool :=
  containsSub pat.toList s.toList

/-- Does `l` end with `p`? (a JS regex search anchored with `$`). -/
def endsWithL (l p : List Char) : Bool :=
  startsWithL (l.drop (l.length - p.length)) p && decide (p.length ≤ l.length)

/-- Index of the first suffix of `l` satisfying `p` (the position where an
unanchored JS regex first matches), or `none`. -/
def searchSuffix (p : List Char → Bool) : List Char → Option Nat
  | [] => if p [] then some 0 else none
  | c :: r => if p (c :: r) then some 0 else (searchSuffix p r).map (· + 1)

/-- JS `String.prototype.search` result: first matching index or `-1`. -/
def searchIdx (p : List Char → Bool) (s : String) : Int :=
  match searchSuffix p s.toList with
  | some i => (i : Int)
  | none => -1

/-- JS `String.prototype.substring`: negative arguments clamp to `0`, large
arguments clamp to the length, and the two indices are swapped when given in
descending order. -/
def jsSubstring (s : String) (a b : Int) : String :=
  let n : Int := s.length
  let a' := (min (max a 0) n).toNat
  let b' := (min (max b 0) n).toNat
  let lo := min a' b'
  let hi := max a' b'
  String.mk ((s.toList.drop lo).take (hi - lo))

/-- One-argument JS `substring` (up to the end of the string). -/
def jsSubstringFrom (s : String) (a : Int) : String :=
  jsSubstring s a s.length

/-- JS `String.prototype.indexOf(char, fromIndex)`: `-1` when absent. -/
def jsIndexOfFrom (s : String) (c : Char) (start : Int) : Int :=
  let st := (min (max start 0) (s.length : Int)).toNat
  match ((s.toList.drop st).findIdx? (· == c)) with
  | some k => ((st + k : Nat) : Int)
  | none => -1

/-- JS `String.prototype.lastIndexOf(char)`: `-1` when absent. -/
def jsLastIndexOf (s : String) (c : Char) : Int :=
  match (s.toList.reverse.findIdx? (· == c)) with
  | some k => ((s.length - 1 - k : Nat) : Int)
  | none => -1

/-- JS `parseInt(str)`: skip leading whitespace, optional sign, an optional
`0x`/`0X` hexadecimal marker, then leading digits; `none` models `NaN`. -/
def jsParseInt (s : String) : Option Int :=
  let l := s.toList.dropWhile isJsWs
  let (sign, l2) : Int × List Char :=
    match l with
    | '-' :: r => (-1, r)
    | '+' :: r => (1, r)
    | _ => (1, l)
  match l2 with
  | '0' :: x :: r =>
    if x = 'x' || x = 'X' then
      let hs := r.takeWhile (fun c => c.isDigit ||
        ('a' ≤ c.toLower && c.toLower ≤ 'f'))
      if hs.isEmpty then none
      else some (sign * (hs.foldl (fun a c =>
        a * 16 + (if c.isDigit then c.toNat - '0'.toNat
                  else c.toLower.toNat - 'a'.toNat + 10)) 0 : Nat))
    else
      let ds := l2.takeWhile Char.isDigit
      some (sign * (digitsToNat ds : Nat))
  | _ =>
    let ds := l2.takeWhile Char.isDigit
    if ds.isEmpty then none else some (sign * (digitsToNat ds : Nat))

/-- JS `Number(str)` restricted to the integral literals produced by the
engine: trimmed empty string is `0`, an optional sign followed by decimal
digits is their value, and anything else (fractional, exponent or junk) is
modelled as `NaN` (`none`).  The runtime only ever reaches this conversion on
all-digit strings captured by a `:\d+$` match. -/
def jsNumber (s : String) : Option Int :=
  let l := (s.toList.dropWhile isJsWs).reverse.dropWhile isJsWs |>.reverse
  match l with
  | [] => some 0
  | _ =>
    let (sign, l2) : Int × List Char :=
      match l with
      | '-' :: r => (-1, r)
      | '+' :: r => (1, r)
      | _ => (1, l)
    if l2.isEmpty then none
    else if l2.all Char.isDigit then some (sign * (digitsToNat l2 : Nat))
    else none

/-! ### The line patterns of `xrunRuntime.ts`

Each predicate below is the shallow embedding of one regex appearing in the
source, as a match-at-this-position test; `searchSuffix`/`searchIdx` turn it
into the unanchored `search`.  Greedy character classes that exclude their
follow-set are implemented by maximal munch, which coincides with the JS
backtracking semantics for these patterns. -/

/-- Match of `/:\d+\s/` at the head of the list. -/
def colonDigitsWsAt (l : List Char) : Bool :=
  match l with
  | ':' :: r =>
    let ds := r.takeWhile Char.isDigit
    !ds.isEmpty &&
      (match r.drop ds.length with
       | w :: _ => isJsWs w
       | [] => false)
  | _ => false

/-- Digits of the first `/:\d+\s/` match (`exec` on the same regex). -/
def execColonDigitsWs : List Char → Option (List Char)
  | [] => none
  | c :: r =>
    if colonDigitsWsAt (c :: r) then some (r.takeWhile Char.isDigit)
    else execColonDigitsWs r

/-- Match of `/:\d+$/` at the head of the list (rest must be only digits). -/
def colonDigitsEndAt (l : List Char) : Bool :=
  match l with
  | ':' :: r => !r.isEmpty && r.all Char.isDigit
  | _ => false

/-- Match of `/\sat\s/` at the head of the list. -/
def wsAtWsAt (l : List Char) : Bool :=
  match l with
  | w1 :: 'a' :: 't' :: w2 :: _ => isJsWs w1 && isJsWs w2
  | _ => false

/-- Search success of `/\d.*\sat\s/`: a digit with a `\sat\s` occurrence
starting strictly after it (`.` never needs to cross a newline because the
input is a single demultiplexed line). -/
def digitThenAtPat (l : List Char) : Bool :=
  match searchSuffix (fun t => match t with
    | c :: _ => c.isDigit
    | [] => false) l with
  | some i => (searchSuffix wsAtWsAt (l.drop (i + 1))).isSome
  | none => false

/-- `/Created stop (\d+)/.exec(line)`: value of the first captured digit run,
scanning later positions when an occurrence of the literal prefix is not
followed by a digit. -/
def execCreatedStop : List Char → Option Nat
  | [] => none
  | c :: r =>
    (if startsWithL (c :: r) ("Created stop ".toList) then
      let ds := ((c :: r).drop "Created stop ".length).takeWhile Char.isDigit
      if ds.isEmpty then none else some (digitsToNat ds)
    else none).orElse (fun _ => execCreatedStop r)

/-- The lowercase identifier-start class `[a-z_]` (these regexes carry no `i`
flag). -/
def isLowerStart (c : Char) : Bool :=
  ('a' ≤ c && c ≤ 'z') || c = '_'

/-- The stop-name continuation class `[a-z0-9_\[\]\.]`. -/
def isStopNameChar (c : Char) : Bool :=
  isLowerStart c || c.isDigit || c = '[' || c = ']' || c = '.'

/-- Match of `/\(stop\s(\d+|[a-z_][a-z0-9_\[\]\.]*):/` at the head. -/
def stopParenAt (l : List Char) : Bool :=
  match l with
  | '(' :: 's' :: 't' :: 'o' :: 'p' :: w :: r =>
    isJsWs w &&
      ((let ds := r.takeWhile Char.isDigit
        !ds.isEmpty &&
          (match r.drop ds.length with
           | ':' :: _ => true
           | _ => false)) ||
       (match r with
        | c :: r2 =>
          isLowerStart c &&
            (let nm := r2.takeWhile isStopNameChar
             match r2.drop nm.length with
             | ':' :: _ => true
             | _ => false)
        | [] => false))
  | _ => false

/-- Match of `/\(stop\s\d+/` at the head. -/
def stopParenNumAt (l : List Char) : Bool :=
  match l with
  | '(' :: 's' :: 't' :: 'o' :: 'p' :: w :: d :: _ => isJsWs w && d.isDigit
  | _ => false

/-- The file-name continuation class `[a-z0-9_\/]`. -/
def isFileRunChar (c : Char) : Bool :=
  isLowerStart c || c.isDigit || c = '/'

/-- `.(sv|v|vams|vh|svh):\d+\s` continuation after a dot, trying the
alternatives in the source's order (equivalent to existence). -/
def extColonDigitsWs (r : List Char) : Bool :=
  ["sv", "v", "vams", "vh", "svh"].any (fun e =>
    startsWithL r e.toList && colonDigitsWsAt (r.drop e.length))

/-- Match of the core of `/(..\/)*[a-z_][a-z0-9_\/]*\.(sv|v|vams|vh|svh):\d+\s/`
at the head; since `(..\/)*` admits zero repetitions (and `.` is the
any-character class), the unanchored search succeeds exactly when this core
matches somewhere. -/
def fileLineAt (l : List Char) : Bool :=
  match l with
  | c :: r =>
    isLowerStart c &&
      (let run := r.takeWhile isFileRunChar
       match r.drop run.length with
       | '.' :: r2 => extColonDigitsWs r2
       | _ => false)
  | [] => false

/-- Search success of `/(xcelium>\s)?\S+\.(sv|v|vams|vh|svh):\d+\s/`: because
the prefix group is optional and `\S+` may be a single character, the search
succeeds exactly when a dot preceded by one non-whitespace character is
followed by the extension/line continuation. -/
def stepPat (l : List Char) : Bool :=
  (searchSuffix (fun t => match t with
    | a :: '.' :: r => !isJsWs a && extColonDigitsWs r
    | _ => false) l).isSome

/-- Index of `/\S*$/` in a string: the start of the trailing run of
non-whitespace characters (the string's length when it ends in whitespace or
is empty), which is where the leftmost JS match of this end-anchored pattern
begins. -/
def trailingNonWsStart (s : String) : Nat :=
  s.length - (s.toList.reverse.takeWhile (fun c => !isJsWs c)).length

/-- Strip the `/^xcelium>/` console prompt from a received line. -/
def stripPrompt (s : String) : String :=
  if startsWithL s.toList "xcelium>".toList then
    String.mk (s.toList.drop "xcelium>".length)
  else s

/-- Split on `/\r?\n/` (the stdout data handler's chunk splitting): `\n`
always ends a token, a `\r` immediately before `\n` is folded into the
separator, and a lone `\r` is ordinary content. -/
def jsSplitLines (s : String) : List String :=
  go s.toList []
where
  go : List Char → List Char → List String
    | [], acc => [String.mk acc.reverse]
    | '\n' :: r, acc => String.mk acc.reverse :: go r []
    | '\r' :: '\n' :: r, acc => String.mk acc.reverse :: go r []
    | c :: r, acc => go r (c :: acc)

/-! ### `formatConditionToTcl`

Embedding of the anchored, case-insensitive regex
`/^\s*{?\s*#?([a-z_][a-z0-9_\.\[\]]*)\s*(=|==|===|!=|!==|>|>=|<|<=)\s*((\d*'(b|h|d))?[a-f0-9x]*|"[^"]*")\s*}?\s*$/i`.
All greedy classes exclude their follow-set, so maximal munch matches the JS
backtracking behaviour; the operator and right-hand-side alternations keep
the source's trial order with full backtracking into the rest of the
pattern. -/

/-- The `{` character (kept out of literals). -/
def lbrace : Char := Char.ofNat 123

/-- The `}` character (kept out of literals). -/
def rbrace : Char := Char.ofNat 125

/-- The `'` character (kept out of literals). -/
def squote : Char := Char.ofNat 39

/-- Case-insensitive `[a-z_]`. -/
def isCondNameStart (c : Char) : Bool :=
  ('a' ≤ c.toLower && c.toLower ≤ 'z') || c = '_'

/-- Case-insensitive `[a-z0-9_\.\[\]]`. -/
def isCondNameChar (c : Char) : Bool :=
  isCondNameStart c || c.isDigit || c = '.' || c = '[' || c = ']'

/-- Case-insensitive `[a-f0-9x]`. -/
def isHexRhsChar (c : Char) : Bool :=
  c.isDigit || ('a' ≤ c.toLower && c.toLower ≤ 'f') || c.toLower = 'x'

/-- The pattern tail `\s*\}?\s*$`. -/
def condTrailer (l : List Char) : Bool :=
  match l.dropWhile isJsWs with
  | [] => true
  | c :: r => c = rbrace && (r.dropWhile isJsWs).isEmpty

/-- The right-hand-side alternation `(\d*'(b|h|d))?[a-f0-9x]*|"[^"]*"`,
followed by the trailer; returns the captured right-hand side. -/
def condRhs (l : List Char) : Option String :=
  let hexTail := fun (pre rest : List Char) =>
    let hx := rest.takeWhile isHexRhsChar
    if condTrailer (rest.drop hx.length) then some (String.mk (pre ++ hx))
    else none
  let withRadix : Option String :=
    let ds := l.takeWhile Char.isDigit
    match l.drop ds.length with
    | q :: b :: r =>
      if q = squote && (b.toLower = 'b' || b.toLower = 'h' || b.toLower = 'd')
      then hexTail (ds ++ [q, b]) r
      else none
    | _ => none
  ((withRadix.orElse (fun _ => hexTail [] l)).orElse (fun _ =>
    match l with
    | '"' :: r =>
      let body := r.takeWhile (· ≠ '"')
      match r.drop body.length with
      | '"' :: r2 =>
        if condTrailer r2 then some (String.mk ('"' :: (body ++ ['"'])))
        else none
      | _ => none
    | _ => none))

/-- The operator alternation, tried in the source's order, each alternative
committed only when the rest of the pattern matches. -/
def condTryOps : List String → List Char → Option (String × String)
  | [], _ => none
  | op :: ops, l =>
    (if startsWithL l op.toList then
      (condRhs ((l.drop op.length).dropWhile isJsWs)).map (fun rhs => (op, rhs))
    else none).orElse (fun _ => condTryOps ops l)

/-- Format a user condition in a best effort to meet tcl expression
requirements, or return `none` (TS `formatConditionToTcl`). -/
def formatConditionToTcl (expression : String) : Option String :=
  let attempt := fun (l2 : List Char) =>
    let l3 := l2.dropWhile isJsWs
    let l4 := match l3 with
      | '#' :: r => r
      | _ => l3
    match l4 with
    | c :: r =>
      if isCondNameStart c then
        let nm := r.takeWhile isCondNameChar
        (condTryOps ["=", "==", "===", "!=", "!==", ">", ">=", "<", "<="]
            ((r.drop nm.length).dropWhile isJsWs)).map
          (fun (p : String × String) => (String.mk (c :: nm), p.1, p.2))
      else none
    | [] => none
  let l1 := expression.toList.dropWhile isJsWs
  let m := match l1 with
    | c :: r =>
      if c = lbrace then (attempt r).orElse (fun _ => attempt l1) else attempt l1
    | [] => attempt l1
  m.map (fun (p : String × String × String) =>
    String.mk [lbrace] ++ "#" ++ p.1 ++ " " ++ p.2.1 ++ " " ++ p.2.2 ++
      String.mk [rbrace])

/-! ### Runtime data model (`XrunRuntime`)

The mutable fields of the TS class become a record; `sendSimulatorTerminalCommand`
writes become returned command lists; `sendEvent`, `runtime.emit('stopCreated')`,
`launch_done.notify()` and `this.ls.kill()` become `Effect`s. -/

/-- A runtime breakpoint (TS `IRuntimeBreakpoint`). -/
structure IRuntimeBreakpoint where
  id : Nat
  line : Int
  verified : Bool
deriving Repr, DecidableEq

/-- The two values of the TS `stopEventString` field. -/
inductive StopKind where
  | stopOnBreakpoint
  | stopOnDataBreakpoint
deriving Repr, DecidableEq

/-- Observable effects of processing a line or running a request: an engine
command written to stdin, a subprocess kill, an emitted debug-adapter event,
the internal `stopCreated` notification consumed by the breakpoint race, and
the launch-completion notification. -/
inductive Effect where
  | cmd (c : String)
  | kill
  | ended
  | stopped (k : StopKind)
  | stepped
  | output (line : String)
  | stopCreated (id : Nat)
  | launchDone
deriving Repr, DecidableEq

/-- The session-owned mutable state of `XrunRuntime`. -/
structure RuntimeState where
  cwd : String
  stopOnEntry : Bool
  sourceFile : String
  /-- `_currentLine`; `none` models a `NaN` produced by a failed `parseInt`. -/
  currentLine : Option Int
  stepping : Bool
  stopHit : Bool
  stopEventString : StopKind
  stdout_data : List String
  sendOutputToClient : Bool
  largeExpectedOutput : Bool
  scopes : List String
  breakpoints : List (String × List IRuntimeBreakpoint)
  dataBreakpoints : List String
  breakpointId : Nat
deriving Repr, DecidableEq

/-- The field initializers of the TS class. -/
def initState : RuntimeState where
  cwd := ""
  stopOnEntry := true
  sourceFile := ""
  currentLine := some 0
  stepping := false
  stopHit := false
  stopEventString := .stopOnBreakpoint
  stdout_data := []
  sendOutputToClient := true
  largeExpectedOutput := false
  scopes := []
  breakpoints := []
  dataBreakpoints := []
  breakpointId := 1

/-- `this.breakpoints.get(path)` on the insertion-ordered map. -/
def bpLookup (path : String) : List (String × List IRuntimeBreakpoint) →
    Option (List IRuntimeBreakpoint)
  | [] => none
  | (k, v) :: r => if k = path then some v else bpLookup path r

/-- The `get`-or-`set`-then-`push` sequence of `setBreakPoint`: append to the
file's array, creating the (unique) key when absent. -/
def bpInsert (path : String) (bp : IRuntimeBreakpoint) :
    List (String × List IRuntimeBreakpoint) →
    List (String × List IRuntimeBreakpoint)
  | [] => [(path, [bp])]
  | (k, v) :: r =>
    if k = path then (k, v ++ [bp]) :: r else (k, v) :: bpInsert path bp r

/-- `this.breakpoints.delete(path)`; a TS `Map` has unique keys, so removing
the key removes every entry carrying it. -/
def bpErase (path : String) (m : List (String × List IRuntimeBreakpoint)) :
    List (String × List IRuntimeBreakpoint) :=
  m.filter (fun e => e.1 ≠ path)

/-- The `messageQueue` worker of `xrunRuntime.ts` (concurrency 1): one line in,
the updated state and the effects out.  The rule order is the source's
`if`/`else if` chain; only the first matching rule fires.  `fsExists` stands
for the ambient `fs.existsSync` used by the step rule.  The 250ms-deferred
`kill`/`end` pair of the `$finish` rule is attributed to the triggering
line. -/
def processLine (fsExists : String → Bool) (s : RuntimeState) (line : String) :
    RuntimeState × List Effect :=
  let l := line.toList
  if containsSub "$finish;".toList l then
    (s, [.cmd "exit", .kill, .ended])
  else if containsSub "Created stop 1:".toList l then
    ({ s with stopHit := true }, [.cmd "run"])
  else
    match execCreatedStop l with
    | some bpId => (s, [.stopCreated bpId])
    | none =>
      if (searchSuffix stopParenAt l).isSome then
        ({ s with
            stopEventString :=
              if (searchSuffix stopParenNumAt l).isSome then .stopOnBreakpoint
              else .stopOnDataBreakpoint
            stopHit := true }, [])
      else if s.stopHit && (searchSuffix fileLineAt l).isSome then
        let ddot : Int := searchIdx colonDigitsWsAt line
        let bp_file_str := jsSubstring line 0 ddot
        let bp_line_str :=
          jsSubstring line (ddot + 1) (jsIndexOfFrom line ' ' ddot)
        ({ s with
            stopHit := false
            sourceFile := s.cwd ++ "/" ++ bp_file_str
            currentLine := (jsParseInt bp_line_str).map (· - 1) },
          [.stopped s.stopEventString])
      else if s.stepping && stepPat l then
        let step_line_idx : Int := searchIdx colonDigitsWsAt line
        let step_line_str :=
          match execColonDigitsWs l with
          | some ds => String.mk ds
          | none => ""
        let step_file_str := s.cwd ++ "/" ++
          jsSubstringFrom line (trailingNonWsStart (jsSubstring line 0 step_line_idx))
        ({ s with
            sourceFile := if fsExists step_file_str then step_file_str else s.sourceFile
            currentLine := (jsParseInt step_line_str).map (· - 1)
            stepping := false },
          [.stepped])
      else if endsWithL l "End-of-build".toList then
        if s.stopOnEntry then (s, [.launchDone])
        else (s, [.cmd "run", .launchDone])
      else if s.sendOutputToClient then (s, [.output line])
      else (s, [])

/-! ### Line demultiplexer and command dispatcher -/

/-- One iteration of the stdout `data` handler's `for` loop over the split
lines: in expensive-output mode a line containing the sentinel
`end_cmd_semaphore` notifies and breaks (and is not buffered); every other
line is buffered with the console prompt stripped.  Returns the updated state
and whether the sentinel notified. -/
def feedChunkLines (s : RuntimeState) : List String → RuntimeState × Bool
  | [] => (s, false)
  | l :: rest =>
    if s.largeExpectedOutput && containsStr l "end_cmd_semaphore" then (s, true)
    else
      feedChunkLines
        { s with stdout_data := s.stdout_data ++ [stripPrompt l] } rest

/-- The whole stdout `data` handler for one chunk: split on `/\r?\n/`, run the
loop, and additionally notify unconditionally when not in expensive-output
mode. -/
def onData (s : RuntimeState) (data : String) : RuntimeState × Bool :=
  let (s1, notified) := feedChunkLines s (jsSplitLines data)
  (s1, notified || !s1.largeExpectedOutput)

/-- Deliver a sequence of chunks; the wait is considered notified when any
chunk notified. -/
def feedAll (s : RuntimeState) : List String → RuntimeState × Bool
  | [] => (s, false)
  | d :: rest =>
    let (s1, n1) := onData s d
    let (s2, n2) := feedAll s1 rest
    (s2, n1 || n2)

/-- How a `pending_data.wait(timeout)` resolved: by a notification, or by its
deadline elapsing (the `await-notify` subject always resolves at the deadline
when never notified, so the call cannot block indefinitely). -/
inductive WaitOutcome where
  | notified
  | timedOut
deriving Repr, DecidableEq

/-- Result of `sendCommandWaitResponse`: the state after the call, the
returned buffer, the commands written, and how the wait resolved. -/
structure CmdResult where
  state : RuntimeState
  buffer : List String
  cmds : List String
  outcome : WaitOutcome
deriving Repr, DecidableEq

/-- TS `sendCommandWaitResponse`: reset the buffer, suppress client output,
write the command (and, for expensive outputs, the sentinel `puts`), let the
chunks that arrive before resolution be demultiplexed, then restore client
output and return the buffer.  `arrivals` are the stdout chunks the engine
delivers before the wait resolves; with no arrivals the wait times out at its
deadline. -/
def sendCommandWaitResponse (s : RuntimeState) (c : String)
    (_timeoutMs : Nat := 5000) (expensive : Bool := false)
    (arrivals : List String := []) : CmdResult :=
  let s1 := { s with
    stdout_data := []
    sendOutputToClient := false
    largeExpectedOutput := expensive }
  let cmds := [c] ++ (if expensive then ["puts end_cmd_semaphore"] else [])
  let (s2, notified) := feedAll s1 arrivals
  { state := { s2 with sendOutputToClient := true }
    buffer := s2.stdout_data
    cmds := cmds
    outcome := if notified then .notified else .timedOut }

/-! ### Breakpoint operations -/

/-- Result of `setBreakPoint`: the returned breakpoint, the state after the
call, and the commands written. -/
structure SetBpResult where
  bp : IRuntimeBreakpoint
  state : RuntimeState
  cmds : List String
deriving Repr, DecidableEq

/-- TS `setBreakPoint(path, line, hitCountCondition, condition)`.  A fresh
local id is always consumed.  A boolean condition that fails the tcl
reformatting returns the unverified breakpoint early, before any command is
written or the table touched.  Otherwise the breakpoint is recorded, the
`stop -create` command written, and a `stopCreated` notification carrying the
breakpoint's id is raced against a 1000ms timer: `confirmations` lists the
ids notified before that deadline, and the race leaves `verified` false when
the deadline wins (the timer path resolves without touching the flag). -/
def setBreakPoint (s : RuntimeState) (path : String) (line : Int)
    (hitCountCondition : Option String) (condition : Option String)
    (confirmations : List Nat) : SetBpResult :=
  let bpId := s.breakpointId
  let s1 := { s with breakpointId := s.breakpointId + 1 }
  let cmd0 := "stop -create -file " ++ path ++ " -line " ++ toString line ++
    " -all -name " ++ toString bpId
  let withCond : Option String :=
    match hitCountCondition with
    | some hc => some (cmd0 ++ " -skip " ++ hc)
    | none =>
      match condition with
      | some c =>
        match formatConditionToTcl c with
        | some tcl => some (cmd0 ++ " -if " ++ tcl)
        | none => none
      | none => some cmd0
  match withCond with
  | none => { bp := { id := bpId, line := line, verified := false }, state := s1, cmds := [] }
  | some cmd =>
    let bp : IRuntimeBreakpoint :=
      { id := bpId, line := line, verified := confirmations.contains bpId }
    { bp := bp
      state := { s1 with breakpoints := bpInsert path bp s1.breakpoints }
      cmds := [cmd] }

/-- TS `clearBreakpoints(path)`: when the file has an entry, one batched
`stop -delete` enumerating every id created for it; the key is deleted either
way. -/
def clearBreakpoints (s : RuntimeState) (path : String) :
    RuntimeState × List String :=
  let cmds :=
    match bpLookup path s.breakpoints with
    | some bps =>
      ["stop -delete " ++
        String.intercalate " " (bps.map (fun bp => toString bp.id))]
    | none => []
  ({ s with breakpoints := bpErase path s.breakpoints }, cmds)

/-- Result of `setDataBreakpoint`: the returned success flag, the state after
the call, the commands written, and the engine reply that was scanned. -/
structure DataBpResult where
  ok : Bool
  state : RuntimeState
  cmds : List String
  buffer : List String
deriving Repr, DecidableEq

/-- TS `setDataBreakpoint(varName)`: the expression is pushed onto the watch
list first, then the `stop -create -object` reply is scanned for the engine
error sentinel `*E,STCRDP`; a failed creation still leaves the expression on
the list. -/
def setDataBreakpoint (s : RuntimeState) (varName : String)
    (arrivals : List String) : DataBpResult :=
  let s1 := { s with dataBreakpoints := s.dataBreakpoints ++ [varName] }
  let r := sendCommandWaitResponse s1
    ("stop -create -object " ++ varName ++ " -name " ++ varName) 5000 false arrivals
  let error := r.buffer.any (fun l => containsStr l "*E,STCRDP")
  { ok := !error, state := r.state, cmds := r.cmds, buffer := r.buffer }

/-- TS `clearAllDataBreakpoints()`: when the watch list is non-empty, one bulk
`stop -delete` enumerating it, then the list is emptied; otherwise nothing is
written. -/
def clearAllDataBreakpoints (s : RuntimeState) : RuntimeState × List String :=
  if 0 < s.dataBreakpoints.length then
    ({ s with dataBreakpoints := [] },
      ["stop -delete " ++ String.intercalate " " s.dataBreakpoints])
  else (s, [])

/-! ### Stack parser -/

/-- A parsed stack frame (TS `IRuntimeStackFrame`); `line` is `none` on a
`NaN`, `column` is always set to `0`, `instruction` (always `undefined`) is
omitted. -/
structure IRuntimeStackFrame where
  index : Int
  name : String
  file : String
  line : Option Int
  column : Option Int
deriving Repr, DecidableEq

/-- TS `IRuntimeStack`. -/
structure IRuntimeStack where
  count : Nat
  frames : List IRuntimeStackFrame
deriving Repr, DecidableEq

/-- Parse one reply line of the `stack` command: lines passing the
`/\d.*\sat\s/` entry filter yield `(name, file, line)`, with a leading `../`
in the file rewritten against the working directory's parent. -/
def stackEntry (cwd : String) (line : String) :
    Option (String × String × Option Int) :=
  if digitThenAtPat line.toList then
    let atIdx : Int := searchIdx wsAtWsAt line
    let name := jsSubstring line 0 atIdx
    let line_idx : Int := searchIdx colonDigitsEndAt line
    let line_str := jsSubstringFrom line (line_idx + 1)
    let file_str := jsSubstring line (atIdx + 4) line_idx
    let file :=
      if jsSubstring file_str 0 3 = "../" then
        jsSubstring cwd 0 (jsLastIndexOf cwd '/') ++ jsSubstringFrom file_str 2
      else file_str
    some (name, file, jsNumber line_str)
  else none

/-- The scope list extracted from the topmost frame's name: every prefix of
its final space-separated token cut at a dot, then the full token (the
`/\./g` loop of `stack`). -/
def dotSplits (fullscope : String) : List String :=
  ((List.range fullscope.length).filterMap (fun p =>
    if fullscope.toList.get? p = some '.' then
      some (String.mk (fullscope.toList.take p))
    else none)) ++ [fullscope]

/-- The parsing half of TS `stack`: consume the buffered reply lines, build
the frames for indices in `[startFrame, min(endFrame, names.length))`, and
extract the scope list.  An out-of-range index reads `undefined` in TS; that
unexercised degenerate access is modelled by the defaults `""`/`none`. -/
def stackParse (cwd : String) (stdout_lines : List String)
    (startFrame endFrame : Int) : IRuntimeStack × List String :=
  let entries := stdout_lines.filterMap (stackEntry cwd)
  let names := entries.map (·.1)
  let files := entries.map (fun e => e.2.1)
  let lns := entries.map (fun e => e.2.2)
  let stop : Int := min endFrame (names.length : Int)
  let idxs : List Int :=
    (List.range (stop - startFrame).toNat).map (fun k => startFrame + (k : Int))
  let frames : List IRuntimeStackFrame := idxs.map (fun i =>
    { index := i
      name := if 0 ≤ i then ((names.get? i.toNat).getD "") else ""
      file := if 0 ≤ i then ((files.get? i.toNat).getD "") else ""
      line := (if 0 ≤ i then ((lns.get? i.toNat).getD none) else none).map (· - 1)
      column := some 0 })
  let scopes :=
    match names with
    | [] => []
    | n0 :: _ => dotSplits (jsSubstringFrom n0 (jsLastIndexOf n0 ' ' + 1))
  ({ count := names.length, frames := frames }, scopes)

/-- TS `stack(startFrame, endFrame)` end to end: issue the `stack` command in
expensive-output (sentinel-terminated) mode, then parse the buffer; the
extracted scopes replace the session's scope list. -/
def stack (s : RuntimeState) (arrivals : List String)
    (startFrame endFrame : Int) :
    IRuntimeStack × RuntimeState × List String :=
  let r := sendCommandWaitResponse s "stack" 5000 true arrivals
  let p := stackParse r.state.cwd r.buffer startFrame endFrame
  (p.1, { r.state with scopes := p.2 }, r.cmds)

/-! ### The single-concurrency consumption relation -/

/-- Relational embedding of `async.queue(worker, 1)` driven by the readline
interface: the queue consumes the demultiplexed lines one at a time, in
arrival order, each through `processLine`, concatenating the emitted effects.
This is the specification against which determinism of the session state
machine is proved. -/
inductive QueueRun (fs : String → Bool) :
    RuntimeState → List String → RuntimeState → List Effect → Prop
  | nil (s : RuntimeState) : QueueRun fs s [] s []
  | cons {s s' s'' : RuntimeState} {line : String} {rest : List String}
      {es tail : List Effect}
      (h : processLine fs s line = (s', es))
      (htail : QueueRun fs s' rest s'' tail) :
      QueueRun fs s (line :: rest) s'' (es ++ tail)

/-! ### Helper lemmas -/

/-- Looking up a file after appending a breakpoint for it yields the previous
array (empty when the key was absent) with the new breakpoint appended. -/
theorem bpLookup_insert (path : String) (bp : IRuntimeBreakpoint)
    (m : List (String × List IRuntimeBreakpoint)) :
    bpLookup path (bpInsert path bp m) =
      some ((bpLookup path m).getD [] ++ [bp]) := by
  induction m with
  | nil => simp [bpInsert, bpLookup]
  | cons e r ih =>
    obtain ⟨k, v⟩ := e
    by_cases h : k = path
    · simp [bpInsert, bpLookup, h]
    · simp [bpInsert, bpLookup, h, ih]

/-- Deleting a file's key removes every breakpoint entry for it. -/
theorem bpLookup_erase (path : String)
    (m : List (String × List IRuntimeBreakpoint)) :
    bpLookup path (bpErase path m) = none := by
  induction m with
  | nil => rfl
  | cons e r ih =>
    obtain ⟨k, v⟩ := e
    by_cases h : k = path
    · simpa [bpErase, List.filter, h] using ih
    · simpa [bpErase, List.filter, h, bpLookup] using ih

/-- The data handler's loop only touches the output buffer. -/
theorem feedChunkLines_dataBreakpoints (s : RuntimeState) (ls : List String) :
    (feedChunkLines s ls).1.dataBreakpoints = s.dataBreakpoints := by
  induction ls generalizing s with
  | nil => rfl
  | cons l r ih =>
    by_cases h : s.largeExpectedOutput && containsStr l "end_cmd_semaphore"
    · simp [feedChunkLines, h]
    · simp [feedChunkLines, h, ih]

/-- Delivering chunks does not change the watch list. -/
theorem feedAll_dataBreakpoints (s : RuntimeState) (ds : List String) :
    (feedAll s ds).1.dataBreakpoints = s.dataBreakpoints := by
  induction ds generalizing s with
  | nil => rfl
  | cons d r ih =>
    simp only [feedAll]
    rw [ih]
    exact feedChunkLines_dataBreakpoints _ _

/-- The ids carried by the `stopCreated` notifications in an effect list (the
identifiers the breakpoint race listens for). -/
def stopCreatedIds (es : List Effect) : List Nat :=
  es.filterMap (fun e => match e with
    | .stopCreated i => some i
    | _ => none)

/-! ### Claims -/

/-- Claim C1, counterexample: with a fresh session and no `stopCreated`
confirmation arriving before the 1000ms race deadline, the breakpoint
returned by `setBreakPoint` has `verified = false`, not `true` — the timeout
arm of the race resolves without ever touching the flag, so creation does
not degrade to "assumed verified". -/
theorem claim1_counterexample :
    (setBreakPoint initState "tb/top.sv" 10 none none []).bp.verified ≠ true := by
  decide

/-- Claim C1, amended: if no confirmation matching the breakpoint's id
arrives before the 1000ms event-race deadline, the breakpoint returned by
`setBreakPoint` after the timeout keeps `verified = false` (pessimistic
outcome; the unverified breakpoint is still returned under its fresh id). -/
theorem claim1_timeout_keeps_unverified (s : RuntimeState) (path : String)
    (line : Int) (confirmations : List Nat)
    (h : confirmations.contains s.breakpointId = false) :
    (setBreakPoint s path line none none confirmations).bp.verified = false ∧
    (setBreakPoint s path line none none confirmations).bp.id = s.breakpointId := by
  have h' : s.breakpointId ∉ confirmations := by simpa using h
  simp [setBreakPoint, h']

/-- Claim C1, witness at a fresh session with no confirmations. -/
theorem claim1_witness :
    (setBreakPoint initState "tb/top.sv" 10 none none []).bp.verified = false ∧
    (setBreakPoint initState "tb/top.sv" 10 none none []).bp.id = initState.breakpointId :=
  claim1_timeout_keeps_unverified initState "tb/top.sv" 10 [] rfl

/-- Claim C2: the state machine maps the literal line `"Created stop 3:"` to
a `stopCreated 3` notification (for any session state — the rule fires before
any state-dependent rule), and a `setBreakPoint` whose issued command
requested name `3` (i.e. the local id counter was `3`) that receives that
notification before the 1000ms deadline returns its breakpoint with
`verified = true`, resolved by the event arm of the race rather than the
timer. -/
theorem claim2_created_stop_three_confirms (fs : String → Bool)
    (s s2 : RuntimeState) (path : String) (line : Int)
    (h : s2.breakpointId = 3) :
    (processLine fs s "Created stop 3:").2 = [Effect.stopCreated 3] ∧
    (setBreakPoint s2 path line none none
      (stopCreatedIds (processLine fs s "Created stop 3:").2)).bp.verified = true := by
  have hp : (processLine fs s "Created stop 3:").2 = [Effect.stopCreated 3] := rfl
  refine ⟨hp, ?_⟩
  rw [hp]
  simp [setBreakPoint, stopCreatedIds, h]

/-- Claim C2, witness at a fresh session whose next breakpoint name is 3. -/
theorem claim2_witness :
    (processLine (fun _ => false) initState "Created stop 3:").2 =
      [Effect.stopCreated 3] ∧
    (setBreakPoint { initState with breakpointId := 3 } "tb/agent.sv" 12 none none
      (stopCreatedIds (processLine (fun _ => false) initState "Created stop 3:").2)).bp.verified
      = true :=
  claim2_created_stop_three_confirms (fun _ => false) initState
    { initState with breakpointId := 3 } "tb/agent.sv" 12 rfl

/-- Claim C3: the session state machine consumes lines with concurrency
exactly 1 in arrival order (`QueueRun` is the relational embedding of the
`async.queue(..., 1)` consumption), so the resulting state and sequence of
emitted transitions are a deterministic function of the initial state and
the line sequence alone: any two runs over the same lines from the same
state agree. -/
theorem claim3_queue_deterministic (fs : String → Bool)
    (s s1 s2 : RuntimeState) (ls : List String) (es1 es2 : List Effect)
    (h1 : QueueRun fs s ls s1 es1) (h2 : QueueRun fs s ls s2 es2) :
    s1 = s2 ∧ es1 = es2 := by
  induction h1 generalizing s2 es2 with
  | nil s => cases h2; exact ⟨rfl, rfl⟩
  | cons h htail ih =>
    cases h2 with
    | cons h' htail' =>
      rw [h] at h'
      injection h' with hs hes
      subst hs
      subst hes
      obtain ⟨hA, hB⟩ := ih _ _ htail'
      exact ⟨hA, by rw [hB]⟩

/-- Claim C3, witness: two derivations of the run consuming the single line
`"End-of-build"` from a fresh session agree. -/
theorem claim3_witness :
    initState = initState ∧
      ([Effect.launchDone] : List Effect) = [Effect.launchDone] := by
  have hr : QueueRun (fun _ => false) initState ["End-of-build"]
      initState [Effect.launchDone] := by
    have hc : processLine (fun _ => false) initState "End-of-build" =
        (initState, [Effect.launchDone]) := rfl
    exact QueueRun.cons hc (QueueRun.nil initState)
  exact claim3_queue_deterministic (fun _ => false) initState initState initState
    ["End-of-build"] [Effect.launchDone] [Effect.launchDone] hr hr

/-- Claim C4, counterexample: with `stopOnEntry` requested (the fresh
session's default), processing the build-completion line emits only the
launch-completion notification — no Stopped event of any kind (in particular
none with reason "entry") is produced by the state machine, refuting the
claimed transition to Stopped. -/
theorem claim4_counterexample :
    (processLine (fun _ => false) initState "End-of-build").2 =
      [Effect.launchDone] := by
  rfl

/-- Claim C4, amended: on the build-completion marker, if `stopOnEntry` was
requested the state machine issues no command and emits no stop event (only
the launch waiter is notified — the engine itself simply remains stopped);
otherwise a `run` resume command is written and, likewise, no stop event is
emitted. -/
theorem claim4_end_of_build (fs : String → Bool) (s : RuntimeState) :
    processLine fs s "End-of-build" =
      (s, if s.stopOnEntry then [Effect.launchDone]
          else [Effect.cmd "run", Effect.launchDone]) := by
  cases h1 : s.stopHit <;> cases h2 : s.stepping <;> cases h3 : s.stopOnEntry <;>
    simp only [processLine, h1, h2, h3] <;> rfl

/-- Claim C5: after `setBreakPoint(f, 10)` followed by `clearBreakpoints(f)`
the breakpoint table has no entry for `f`, and `clearBreakpoints` issues
exactly one `stop -delete` command enumerating every id recorded for `f`
(any ids already present plus the freshly created one). -/
theorem claim5_roundtrip_clears_and_batches (s : RuntimeState) (f : String)
    (confirmations : List Nat) :
    bpLookup f
      (clearBreakpoints (setBreakPoint s f 10 none none confirmations).state f).1.breakpoints
      = none ∧
    (clearBreakpoints (setBreakPoint s f 10 none none confirmations).state f).2 =
      ["stop -delete " ++ String.intercalate " "
        ((((bpLookup f s.breakpoints).getD []) ++
          [(setBreakPoint s f 10 none none confirmations).bp]).map
          (fun bp => toString bp.id))] := by
  constructor
  · simp [clearBreakpoints, bpLookup_erase]
  · simp [clearBreakpoints, setBreakPoint, bpLookup_insert]

/-- Claim C6, counterexample: on the claim's literal engine reply (a head
line with no digit anywhere before its ` at ` separator), `getStack(0, 10)`
parses no frame at all — the `/\d.*\sat\s/` entry filter requires a digit
(the frame index the real engine prints) before the separator, so the claimed
single `top.env.agent` frame is not produced. -/
theorem claim6_counterexample :
    (stack { initState with cwd := "/home/user/proj/sim" }
      ["top.env.agent at ../tb/agent.sv:42\n  ../tb/agent.sv:42 \nend_cmd_semaphore"]
      0 10).1.frames = [] ∧
    (stack { initState with cwd := "/home/user/proj/sim" }
      ["top.env.agent at ../tb/agent.sv:42\n  ../tb/agent.sv:42 \nend_cmd_semaphore"]
      0 10).1.count = 0 := by
  exact ⟨rfl, rfl⟩

/-- Claim C6, amended: when the entry line carries the leading frame-index
digit the filter demands (e.g. `"0 top.env.agent at ../tb/agent.sv:42"`),
`getStack(0, 10)` returns exactly one frame: its name is the full text before
` at ` (`"0 top.env.agent"`), its file is the `../`-relative path rewritten
against the working directory's parent (hence ending in `tb/agent.sv`), its
line is 41 (the engine's 1-based 42 made 0-based) and its column is 0; the
trailer line parses to no frame. -/
theorem claim6_indexed_entry_parses (s : RuntimeState) :
    (stack s
      ["0 top.env.agent at ../tb/agent.sv:42\n  ../tb/agent.sv:42 \nend_cmd_semaphore"]
      0 10).1 =
      { count := 1
        frames := [{ index := 0
                     name := "0 top.env.agent"
                     file := jsSubstring s.cwd 0 (jsLastIndexOf s.cwd '/') ++
                       "/tb/agent.sv"
                     line := some 41
                     column := some 0 }] } ∧
    ∃ pre,
      ((stack s
        ["0 top.env.agent at ../tb/agent.sv:42\n  ../tb/agent.sv:42 \nend_cmd_semaphore"]
        0 10).1.frames.map (fun fr => fr.file)) = [pre ++ "tb/agent.sv"] := by
  refine ⟨rfl, ⟨jsSubstring s.cwd 0 (jsLastIndexOf s.cwd '/') ++ "/", ?_⟩⟩
  show [jsSubstring s.cwd 0 (jsLastIndexOf s.cwd '/') ++ "/tb/agent.sv"] =
    [(jsSubstring s.cwd 0 (jsLastIndexOf s.cwd '/') ++ "/") ++ "tb/agent.sv"]
  rw [String.append_assoc]
  congr 1

/-- Claim C7: a `sendCommandWaitResponse` call that sees no sentinel and no
output chunks before its deadline resolves at the deadline (rather than
blocking indefinitely) and returns an empty buffer — the buffer having been
reset to empty at the start of the call regardless of what it held before. -/
theorem claim7_timeout_returns_empty (s : RuntimeState) (c : String)
    (tmo : Nat) (expensive : Bool) :
    (sendCommandWaitResponse s c tmo expensive []).buffer = [] ∧
    (sendCommandWaitResponse s c tmo expensive []).outcome = WaitOutcome.timedOut ∧
    (sendCommandWaitResponse s c tmo expensive []).state.stdout_data = [] :=
  ⟨rfl, rfl, rfl⟩

/-- Claim C8: `clearAllDataBreakpoints` is idempotent — a first call on a
non-empty watch list writes exactly one bulk delete command and empties the
list, and an immediately following second call writes no command and leaves
the (already empty) state untouched. -/
theorem claim8_clear_all_idempotent (s : RuntimeState)
    (h : s.dataBreakpoints ≠ []) :
    (clearAllDataBreakpoints s).2 =
      ["stop -delete " ++ String.intercalate " " s.dataBreakpoints] ∧
    (clearAllDataBreakpoints s).1.dataBreakpoints = [] ∧
    (clearAllDataBreakpoints (clearAllDataBreakpoints s).1).2 = [] ∧
    (clearAllDataBreakpoints (clearAllDataBreakpoints s).1).1 =
      (clearAllDataBreakpoints s).1 := by
  have hlen : 0 < s.dataBreakpoints.length := List.length_pos.mpr h
  simp [clearAllDataBreakpoints, hlen]

/-- Claim C8, witness at a session watching a single expression. -/
theorem claim8_witness :
    (clearAllDataBreakpoints { initState with dataBreakpoints := ["top.sig"] }).2 =
      ["stop -delete " ++ String.intercalate " " ["top.sig"]] ∧
    (clearAllDataBreakpoints { initState with dataBreakpoints := ["top.sig"] }).1.dataBreakpoints = [] ∧
    (clearAllDataBreakpoints (clearAllDataBreakpoints { initState with dataBreakpoints := ["top.sig"] }).1).2 = [] ∧
    (clearAllDataBreakpoints (clearAllDataBreakpoints { initState with dataBreakpoints := ["top.sig"] }).1).1 =
      (clearAllDataBreakpoints { initState with dataBreakpoints := ["top.sig"] }).1 :=
  claim8_clear_all_idempotent { initState with dataBreakpoints := ["top.sig"] }
    (by decide)

/-- Claim C9: `setDataBreakpoint` appends the expression to the watch list
before inspecting the engine's reply, so even when the reply carries the
`*E,STCRDP` error sentinel and the call returns `false`, the expression
remains on the watch list and is enumerated by the single bulk
`stop -delete` of the next `clearAllDataBreakpoints`. -/
theorem claim9_failed_creation_still_listed (s : RuntimeState) (v : String)
    (arrivals : List String)
    (h : (setDataBreakpoint s v arrivals).buffer.any
      (fun l => containsStr l "*E,STCRDP") = true) :
    (setDataBreakpoint s v arrivals).ok = false ∧
    v ∈ (setDataBreakpoint s v arrivals).state.dataBreakpoints ∧
    (clearAllDataBreakpoints (setDataBreakpoint s v arrivals).state).2 =
      ["stop -delete " ++
        String.intercalate " " (s.dataBreakpoints ++ [v])] := by
  have hdb : (setDataBreakpoint s v arrivals).state.dataBreakpoints =
      s.dataBreakpoints ++ [v] := by
    simp [setDataBreakpoint, sendCommandWaitResponse, feedAll_dataBreakpoints]
  refine ⟨?_, ?_, ?_⟩
  · simp only [setDataBreakpoint] at h ⊢
    simp [h]
  · rw [hdb]
    exact List.mem_append_right _ (List.mem_singleton.mpr rfl)
  · have hne : 0 < (setDataBreakpoint s v arrivals).state.dataBreakpoints.length := by
      rw [hdb]; simp
    simp [clearAllDataBreakpoints, hne, hdb]

/-- Claim C9, witness: a reply chunk carrying the error sentinel. -/
theorem claim9_witness :
    (setDataBreakpoint initState "top.sig" ["*E,STCRDP: cannot create\n"]).ok = false ∧
    "top.sig" ∈ (setDataBreakpoint initState "top.sig"
      ["*E,STCRDP: cannot create\n"]).state.dataBreakpoints ∧
    (clearAllDataBreakpoints (setDataBreakpoint initState "top.sig"
      ["*E,STCRDP: cannot create\n"]).state).2 =
      ["stop -delete " ++
        String.intercalate " " (initState.dataBreakpoints ++ ["top.sig"])] :=
  claim9_failed_creation_still_listed initState "top.sig"
    ["*E,STCRDP: cannot create\n"] rfl

/-- Claim C10: a `setBreakPoint` call with no hit-count condition and a
boolean condition rejected by the tcl reformatting returns early: the
breakpoint comes back unverified, no command is written to the engine, and
the per-file table is untouched — so a later `clearBreakpoints` for that file
issues exactly what it would have issued without this call, never enumerating
the abandoned id. -/
theorem claim10_bad_condition_early_return (s : RuntimeState) (path : String)
    (line : Int) (cond : String) (confirmations : List Nat)
    (h : formatConditionToTcl cond = none) :
    (setBreakPoint s path line none (some cond) confirmations).bp.verified = false ∧
    (setBreakPoint s path line none (some cond) confirmations).cmds = [] ∧
    (setBreakPoint s path line none (some cond) confirmations).state.breakpoints =
      s.breakpoints ∧
    (clearBreakpoints (setBreakPoint s path line none (some cond) confirmations).state path).2 =
      (clearBreakpoints s path).2 := by
  simp [setBreakPoint, clearBreakpoints, h]

/-- Claim C10, witness at a condition the reformatter rejects. -/
theorem claim10_witness :
    (setBreakPoint initState "tb/top.sv" 10 none (some "not a condition!") []).bp.verified = false ∧
    (setBreakPoint initState "tb/top.sv" 10 none (some "not a condition!") []).cmds = [] ∧
    (setBreakPoint initState "tb/top.sv" 10 none
        (some "not a condition!") []).state.breakpoints = initState.breakpoints ∧
    (clearBreakpoints (setBreakPoint initState "tb/top.sv" 10 none
        (some "not a condition!") []).state "tb/top.sv").2 =
      (clearBreakpoints initState "tb/top.sv").2 :=
  claim10_bad_condition_early_return initState "tb/top.sv" 10
    "not a condition!" [] rfl

end Xrun
